import Mathlib

/-!
Verification development for the `dice_blast` job-application automation
program (`src/main.rs`).  The source is a single Rust binary driving a
remote browser; here its pure control logic is shallowly embedded:

* durations are natural numbers of milliseconds;
* each fallible remote call (`driver.find`, `driver.get`,
  `is_displayed`, file open, ...) is an oracle argument of the embedded
  function, `Except Unit _` standing for `Result<_, WebDriverError>`;
* loops that poll in real time become functions of the poll index: the
  predicate oracle at index `n` is the outcome of the query issued at
  elapsed time `n * interval` milliseconds (the loop sleeps `interval`
  between consecutive attempts and polls immediately at elapsed 0);
* side effects (navigation, sleeps, script execution, login prompt)
  become entries of an explicit action trace.

All definitions are executable; theorems are proved against them.
-/

namespace DiceBlast

/-! ## Element Wait Engine (`wait_for_element`, src/main.rs lines 200-211)

The Rust loop is

```
let start = Instant::now();
loop {
  if Instant::now() - start > timeout { return Err(Timeout ...); }
  if driver.find(selector).await.is_ok() { return Ok(()); }
  sleep(Duration::from_millis(500)).await;
}
```

`waitLoop pred interval timeout fuel n` embeds the loop from poll index
`n` on: at index `n` the elapsed time is `n * interval` ms; the deadline
test `elapsed > timeout` runs before the predicate, exactly as in the
source.  `Except.ok n` reports success at poll `n` (hence after `n + 1`
predicate invocations, never spaced closer than `interval`);
`Except.error e` reports a timeout returned at elapsed time `e`.  The
`fuel` argument only bounds recursion depth; `wait_until` supplies
enough fuel that it is never exhausted when `0 < interval`. -/

def waitLoop (pred : Nat → Bool) (interval timeout : Nat) : Nat → Nat → Except Nat Nat
  | 0, _ => Except.error 0
  | fuel + 1, n =>
    if n * interval > timeout then Except.error (n * interval)
    else if pred n then Except.ok n
    else waitLoop pred interval timeout fuel (n + 1)

/-- The wait engine with an explicit poll interval (the source fixes the
interval to 500 ms; `wait_for_element` below instantiates it). -/
def wait_until (pred : Nat → Bool) (interval timeout : Nat) : Except Nat Nat :=
  waitLoop pred interval timeout (timeout + 2) 0

/-- `wait_for_element` (lines 200-211): `pred n` is
`driver.find(selector).await.is_ok()` at poll `n`; poll interval 500 ms. -/
def wait_for_element (find_ok : Nat → Bool) (timeout : Nat) : Except Nat Nat :=
  wait_until find_ok 500 timeout

theorem waitLoop_ok (pred : Nat → Bool) (interval timeout : Nat)
    (N : Nat) (hN : pred N = true) (hdead : N * interval ≤ timeout) :
    ∀ fuel n, n ≤ N → N - n < fuel →
      (∀ m, n ≤ m → m < N → pred m = false) →
      waitLoop pred interval timeout fuel n = Except.ok N := by
  intro fuel
  induction fuel with
  | zero => intro n _ h; omega
  | succ fuel ih =>
    intro n hnN hfuel hfirst
    have hle : n * interval ≤ timeout :=
      le_trans (Nat.mul_le_mul_right interval hnN) hdead
    rw [waitLoop]
    rw [if_neg (by omega)]
    rcases Nat.eq_or_lt_of_le hnN with h | h
    · subst h; rw [if_pos hN]
    · rw [if_neg (by rw [hfirst n le_rfl h]; simp)]
      exact ih (n + 1) h (by omega) (fun m hm hm' => hfirst m (by omega) hm')

theorem waitLoop_timeout (pred : Nat → Bool) (interval timeout : Nat)
    (hpos : 0 < interval)
    (hnever : ∀ m, m * interval ≤ timeout → pred m = false) :
    ∀ fuel n, n ≤ timeout / interval + 1 → (timeout / interval + 1) - n < fuel →
      waitLoop pred interval timeout fuel n
        = Except.error ((timeout / interval + 1) * interval) := by
  intro fuel
  induction fuel with
  | zero => intro n _ h; omega
  | succ fuel ih =>
    intro n hn hfuel
    rw [waitLoop]
    by_cases hgt : n * interval > timeout
    · rw [if_pos hgt]
      have hn' : ¬ n ≤ timeout / interval := by
        intro hle
        have : n * interval ≤ timeout / interval * interval :=
          Nat.mul_le_mul_right interval hle
        have := Nat.div_mul_le_self timeout interval
        omega
      have : n = timeout / interval + 1 := by omega
      rw [this]
    · rw [if_neg hgt, if_neg (by rw [hnever n (by omega)]; simp)]
      have hle : n ≤ timeout / interval :=
        (Nat.le_div_iff_mul_le hpos).mpr (by omega)
      exact ih (n + 1) (by omega) (by omega)

/-- The timeout branch fires strictly after `timeout` but within one
interval of it: `timeout < (timeout / interval + 1) * interval ≤ timeout
+ interval`. -/
theorem timeout_elapsed_bounds (interval timeout : Nat) (hpos : 0 < interval) :
    timeout < (timeout / interval + 1) * interval ∧
      (timeout / interval + 1) * interval ≤ timeout + interval := by
  constructor
  · have h : ¬ (timeout / interval + 1) * interval ≤ timeout := by
      intro hle
      have := (Nat.le_div_iff_mul_le hpos).mpr hle
      omega
    omega
  · have := Nat.div_mul_le_self timeout interval
    calc (timeout / interval + 1) * interval
        = timeout / interval * interval + interval := by ring
      _ ≤ timeout + interval := by omega

/-- **C1.** The wait engine polls the predicate starting at elapsed time
0, spaces successive polls exactly one poll interval apart (poll `n` is
issued at elapsed `n * interval`, so it never polls faster than the
interval), succeeds exactly at the first poll index at which the
predicate holds provided that index lies within the deadline, and when
the predicate never holds within the deadline it returns a `Timeout`
error whose elapsed time is strictly greater than `timeout` (never
earlier) and at most `timeout + interval`. -/
theorem wait_until_spec (pred : Nat → Bool) (interval timeout : Nat)
    (hpos : 0 < interval) :
    (∀ N, pred N = true → (∀ m, m < N → pred m = false) →
      N * interval ≤ timeout →
      wait_until pred interval timeout = Except.ok N) ∧
    ((∀ m, m * interval ≤ timeout → pred m = false) →
      wait_until pred interval timeout
          = Except.error ((timeout / interval + 1) * interval) ∧
        timeout < (timeout / interval + 1) * interval ∧
        (timeout / interval + 1) * interval ≤ timeout + interval) := by
  constructor
  · intro N hN hfirst hdead
    have hNle : N ≤ timeout := by
      have : N ≤ N * interval := Nat.le_mul_of_pos_right N hpos
      omega
    exact waitLoop_ok pred interval timeout N hN hdead (timeout + 2) 0
      (Nat.zero_le N) (by omega) (fun m _ hm => hfirst m hm)
  · intro hnever
    refine ⟨?_, timeout_elapsed_bounds interval timeout hpos⟩
    have hdiv : timeout / interval ≤ timeout := Nat.div_le_self timeout interval
    exact waitLoop_timeout pred interval timeout hpos hnever (timeout + 2) 0
      (Nat.zero_le _) (by omega)

/-- Witness for `wait_until_spec` at a concrete instance: interval 500,
timeout 10000, predicate true exactly from poll 2 on — success `.ok 2`;
and for the never-true predicate, timeout error at elapsed 10500. -/
theorem wait_until_spec_witness :
    wait_until (fun n => decide (n = 2)) 500 10000 = Except.ok 2 ∧
      wait_until (fun _ => false) 500 10000 = Except.error 10500 := by
  constructor
  · exact (wait_until_spec (fun n => decide (n = 2)) 500 10000 (by decide)).1
      2 (by decide) (by decide) (by decide)
  · exact ((wait_until_spec (fun _ => false) 500 10000 (by decide)).2
      (fun m _ => rfl)).1

/-! ## Transport errors inside wait predicates (C6)

To reason about error propagation the outcome of each remote call is
made explicit.  `wait_for_element` only inspects
`driver.find(..).is_ok()`, so both "no such element" and transport
errors collapse to a failed poll; its result type below nevertheless
has a transport constructor so that "a transport error is never
propagated" is expressible.  `wait_for_element_clickable`
(lines 251-264) additionally calls `element.is_displayed().await?` and
`element.is_enabled().await?`, whose errors the `?` operator returns to
the caller at once. -/

/-- Result of one `driver.find` call: element found, not found, or a
transport-level error. -/
inductive FindRes where
  | found
  | notFound
  | err
deriving DecidableEq

inductive WaitErr where
  /-- Timeout returned at the given elapsed time (ms). -/
  | timeout (elapsed : Nat)
  /-- A transport error propagated out of the wait loop. -/
  | transport
deriving DecidableEq

/-- `wait_for_element` (lines 200-211) over explicit find outcomes:
`find n` is the result of the `driver.find` call at poll `n`.  The
source tests only `.is_ok()`, so `notFound` and `err` both fall through
to the sleep-and-retry branch. -/
def waitFindLoop (find : Nat → FindRes) (timeout : Nat) : Nat → Nat → Except WaitErr Nat
  | 0, _ => Except.error (WaitErr.timeout 0)
  | fuel + 1, n =>
    if n * 500 > timeout then Except.error (WaitErr.timeout (n * 500))
    else
      match find n with
      | FindRes.found => Except.ok n
      | _ => waitFindLoop find timeout fuel (n + 1)

def wait_for_element_find (find : Nat → FindRes) (timeout : Nat) : Except WaitErr Nat :=
  waitFindLoop find timeout (timeout + 2) 0

/-- One poll of `wait_for_element_clickable`: whether `driver.find`
returned `Ok`, and the outcomes of `is_displayed` / `is_enabled` on the
found element (each may fail with a transport error). -/
structure ClickProbe where
  find : Nat → Bool
  displayed : Nat → Except Unit Bool
  enabled : Nat → Except Unit Bool

/-- `wait_for_element_clickable` (lines 251-264):

```
loop {
  if elapsed > timeout { return Err(Timeout ...); }
  if let Ok(element) = driver.find(selector) {
    if element.is_displayed().await? && element.is_enabled().await? {
      return Ok(());
    }
  }
  sleep(500ms);
}
```

The `?` on `is_displayed` / `is_enabled` propagates their errors
immediately; `&&` short-circuits, so `is_enabled` runs only when
`is_displayed` returned `Ok(true)`. -/
def waitClickLoop (p : ClickProbe) (timeout : Nat) : Nat → Nat → Except WaitErr Nat
  | 0, _ => Except.error (WaitErr.timeout 0)
  | fuel + 1, n =>
    if n * 500 > timeout then Except.error (WaitErr.timeout (n * 500))
    else
      if p.find n then
        match p.displayed n with
        | Except.error _ => Except.error WaitErr.transport
        | Except.ok d =>
          if d then
            match p.enabled n with
            | Except.error _ => Except.error WaitErr.transport
            | Except.ok e =>
              if e then Except.ok n
              else waitClickLoop p timeout fuel (n + 1)
          else waitClickLoop p timeout fuel (n + 1)
      else waitClickLoop p timeout fuel (n + 1)

def wait_for_element_clickable (p : ClickProbe) (timeout : Nat) : Except WaitErr Nat :=
  waitClickLoop p timeout (timeout + 2) 0

/-- The two embeddings of `wait_for_element` agree: over explicit find
outcomes the loop behaves exactly as the boolean-predicate wait engine
with `pred n = (find n).is_ok()`, a timeout being the only error. -/
theorem waitFindLoop_eq_waitLoop (find : Nat → FindRes) (timeout : Nat) :
    ∀ fuel n, waitFindLoop find timeout fuel n
      = match waitLoop (fun m => find m == FindRes.found) 500 timeout fuel n with
        | Except.ok m => Except.ok m
        | Except.error e => Except.error (WaitErr.timeout e) := by
  intro fuel
  induction fuel with
  | zero => intro n; rfl
  | succ fuel ih =>
    intro n
    rw [waitFindLoop, waitLoop]
    by_cases hgt : n * 500 > timeout
    · rw [if_pos hgt, if_pos hgt]
    · rw [if_neg hgt, if_neg hgt]
      cases hf : find n
      · rfl
      · exact ih (n + 1)
      · exact ih (n + 1)

theorem waitFindLoop_no_transport (find : Nat → FindRes) (timeout : Nat) :
    ∀ fuel n, waitFindLoop find timeout fuel n ≠ Except.error WaitErr.transport := by
  intro fuel
  induction fuel with
  | zero => intro n h; simp [waitFindLoop] at h
  | succ fuel ih =>
    intro n h
    rw [waitFindLoop] at h
    by_cases hgt : n * 500 > timeout
    · rw [if_pos hgt] at h; simp at h
    · rw [if_neg hgt] at h
      cases hf : find n <;> rw [hf] at h
      · simp at h
      · exact ih (n + 1) h
      · exact ih (n + 1) h

theorem waitClickLoop_displayed_err (p : ClickProbe) (timeout : Nat)
    (N : Nat) (hdead : N * 500 ≤ timeout) (hfind : p.find N = true)
    (hdisp : p.displayed N = Except.error ()) :
    ∀ fuel n, n ≤ N → N - n < fuel →
      (∀ m, n ≤ m → m < N → p.find m = false) →
      waitClickLoop p timeout fuel n = Except.error WaitErr.transport := by
  intro fuel
  induction fuel with
  | zero => intro n _ h; omega
  | succ fuel ih =>
    intro n hnN hfuel hfirst
    have hle : n * 500 ≤ timeout :=
      le_trans (Nat.mul_le_mul_right 500 hnN) hdead
    rw [waitClickLoop, if_neg (by omega)]
    rcases Nat.eq_or_lt_of_le hnN with h | h
    · subst h; rw [if_pos hfind, hdisp]
    · rw [if_neg (by rw [hfirst n le_rfl h]; simp)]
      exact ih (n + 1) h (by omega) (fun m hm hm' => hfirst m (by omega) hm')

/-- **C6 (amended).** In `wait_for_element` a transport error from the
predicate's `driver.find` call is treated as "not yet satisfied" and
retried — it is never propagated to the caller.  But in
`wait_for_element_clickable` a transport error from the
`is_displayed` query on a found element is propagated to the caller
immediately (at the first poll that finds the element), even when the
timeout has not elapsed. -/
theorem wait_transport_error_policy (find : Nat → FindRes) (p : ClickProbe)
    (timeout N : Nat) (hdead : N * 500 ≤ timeout) (hfind : p.find N = true)
    (hdisp : p.displayed N = Except.error ())
    (hfirst : ∀ m, m < N → p.find m = false) :
    wait_for_element_find find timeout ≠ Except.error WaitErr.transport ∧
      wait_for_element_clickable p timeout = Except.error WaitErr.transport := by
  constructor
  · exact waitFindLoop_no_transport find timeout (timeout + 2) 0
  · have hN : N ≤ timeout := by omega
    exact waitClickLoop_displayed_err p timeout N hdead hfind hdisp
      (timeout + 2) 0 (Nat.zero_le N) (by omega) (fun m _ hm => hfirst m hm)

/-- Witness for `wait_transport_error_policy`: the element is found at
the very first poll, `is_displayed` fails with a transport error, the
timeout budget is 30000 ms — the transport error comes back at elapsed
time 0, long before the timeout. -/
theorem wait_transport_error_policy_witness :
    wait_for_element_find (fun _ => FindRes.err) 30000
        ≠ Except.error WaitErr.transport ∧
      wait_for_element_clickable
          ⟨fun _ => true, fun _ => Except.error (), fun _ => Except.ok true⟩ 30000
        = Except.error WaitErr.transport :=
  wait_transport_error_policy (fun _ => FindRes.err)
    ⟨fun _ => true, fun _ => Except.error (), fun _ => Except.ok true⟩
    30000 0 (by decide) rfl rfl (fun m hm => by omega)

/-- **C6 counterexample.** The claim says a transport error returned by
the predicate's queries is never propagated to the caller before the
timeout elapses.  With a 30000 ms budget and `is_displayed` failing at
the first poll (elapsed 0), `wait_for_element_clickable` returns the
transport error instead of retrying until the timeout. -/
theorem clickable_propagates_transport :
    wait_for_element_clickable
        ⟨fun _ => true, fun _ => Except.error (), fun _ => Except.ok true⟩ 30000
      = Except.error WaitErr.transport := rfl

/-! ## Posting Extractor (`get_job_detail_ids`, src/main.rs lines 213-249)

The source waits for page readiness, then iterates over every `div`,
and within each over every `a`; an anchor contributes a `Job` when its
`id` attribute matches the regex
`^[a-f0-9]-8-[a-f0-9]-4 ... -[a-f0-9]-12$` (8-4-4-4-12 lowercase hex)
and has not been seen before.  The rendered page is modelled as a list
of divs, each a list of anchors; a failed `attr("id")` call or a
missing attribute both appear as `id = none` (the source skips both
via `if let Ok(id)` / `if let Some(id_value)`). -/

structure Anchor where
  id : Option String
  text : String
deriving DecidableEq

structure Job where
  page_number : Nat
  job_title : String
  url : String
deriving DecidableEq

def isLowerHexDigit (c : Char) : Bool :=
  ('a' ≤ c && c ≤ 'f') || ('0' ≤ c && c ≤ '9')

/-- The regex `^[a-f0-9]{8}-[a-f0-9]{4}-[a-f0-9]{4}-[a-f0-9]{4}-[a-f0-9]{12}$`
(line 224), checked positionally: 36 characters, dashes at positions
8, 13, 18, 23, lowercase hex everywhere else. -/
def hash_pattern_is_match (s : String) : Bool :=
  s.data.length == 36 &&
    (List.range 36).all (fun k =>
      if k == 8 || k == 13 || k == 18 || k == 23 then s.data.getD k ' ' == '-'
      else isLowerHexDigit (s.data.getD k ' '))

/-- `format!("https://dice.com/job-detail/{}", id_value)` (line 237). -/
def jobUrlOf (i : String) : String := "https://dice.com/job-detail/" ++ i

/-- The inner anchor loop (lines 228-245), with the mutable
`jobs` / `seen_ids` state passed explicitly (`seen` is the `HashSet`,
modelled as a list with membership testing). -/
def extractAnchors (page : Nat) : List Anchor → List Job × List String → List Job × List String
  | [], st => st
  | a :: rest, (jobs, seen) =>
    match a.id with
    | none => extractAnchors page rest (jobs, seen)
    | some idv =>
      if hash_pattern_is_match idv && !(seen.contains idv) then
        extractAnchors page rest
          (jobs ++ [Job.mk page a.text (jobUrlOf idv)], idv :: seen)
      else
        extractAnchors page rest (jobs, seen)

/-- `get_job_detail_ids` (lines 213-249): the outer loop over the divs,
starting from empty `jobs` / `seen_ids`.  (The initial
`wait_for_element` call and settle sleep concern readiness, not the
extraction result, and are modelled with the wait engine above.) -/
def get_job_detail_ids (page : Nat) (divs : List (List Anchor)) : List Job :=
  (divs.foldl (fun st d => extractAnchors page d st) ([], [])).1

def anchorHasId (i : String) (a : Anchor) : Bool := a.id == some i

def jobHasUrl (i : String) (j : Job) : Bool := j.url == jobUrlOf i

theorem jobUrlOf_inj {i i' : String} (h : jobUrlOf i = jobUrlOf i') : i = i' := by
  have h2 := congrArg String.data h
  simp only [jobUrlOf, String.data_append] at h2
  exact String.ext (List.append_cancel_left h2)

theorem extractAnchors_append (page : Nat) (l1 l2 : List Anchor) :
    ∀ st, extractAnchors page (l1 ++ l2) st
      = extractAnchors page l2 (extractAnchors page l1 st) := by
  induction l1 with
  | nil => intro st; rfl
  | cons a rest ih =>
    intro st
    cases st with
    | mk jobs seen =>
      cases ha : a.id with
      | none => simp only [List.cons_append, extractAnchors, ha]; exact ih _
      | some idv =>
        simp only [List.cons_append, extractAnchors, ha]
        split
        · exact ih _
        · exact ih _

theorem foldl_extract (page : Nat) (divs : List (List Anchor)) :
    ∀ st, divs.foldl (fun st d => extractAnchors page d st) st
      = extractAnchors page divs.flatten st := by
  induction divs with
  | nil => intro st; rfl
  | cons d rest ih =>
    intro st
    simp only [List.foldl_cons, List.flatten_cons, extractAnchors_append]
    exact ih _

theorem extract_seen (page : Nat) (i : String) :
    ∀ (as : List Anchor) (jobs : List Job) (seen : List String), i ∈ seen →
      (extractAnchors page as (jobs, seen)).1.filter (jobHasUrl i)
        = jobs.filter (jobHasUrl i) := by
  intro as
  induction as with
  | nil => intro jobs seen _; rfl
  | cons a rest ih =>
    intro jobs seen hin
    cases ha : a.id with
    | none => simp only [extractAnchors, ha]; exact ih jobs seen hin
    | some idv =>
      simp only [extractAnchors, ha]
      by_cases hc : (hash_pattern_is_match idv && !(seen.contains idv)) = true
      · rw [if_pos hc]
        have hnotin : idv ∉ seen := by
          have hc' := hc
          rw [Bool.and_eq_true] at hc'
          simpa using hc'.2
        have hne : idv ≠ i := fun h => hnotin (h ▸ hin)
        rw [ih _ _ (List.mem_cons_of_mem idv hin), List.filter_append]
        have : jobHasUrl i (Job.mk page a.text (jobUrlOf idv)) = false := by
          simp only [jobHasUrl, beq_eq_false_iff_ne, ne_eq]
          exact fun h => hne (jobUrlOf_inj h)
        simp [List.filter, this]
      · rw [if_neg hc]; exact ih jobs seen hin

theorem extract_first (page : Nat) (i : String)
    (hshape : hash_pattern_is_match i = true) :
    ∀ (as : List Anchor) (a₀ : Anchor) (tl : List Anchor)
      (jobs : List Job) (seen : List String), i ∉ seen →
      as.filter (anchorHasId i) = a₀ :: tl →
      (extractAnchors page as (jobs, seen)).1.filter (jobHasUrl i)
        = jobs.filter (jobHasUrl i) ++ [Job.mk page a₀.text (jobUrlOf i)] := by
  intro as
  induction as with
  | nil => intro a₀ tl jobs seen _ hm; cases hm
  | cons a rest ih =>
    intro a₀ tl jobs seen hns hm
    by_cases hai : anchorHasId i a = true
    · have haid : a.id = some i := by
        have := hai; simp only [anchorHasId, beq_iff_eq] at this; exact this
      rw [List.filter_cons_of_pos hai] at hm
      have ha0 : a₀ = a := (List.cons.inj hm).1.symm
      have hcont : seen.contains i = false := by simpa using hns
      simp only [extractAnchors, haid, hshape, hcont, Bool.not_false,
        Bool.and_self, if_pos]
      rw [extract_seen page i rest _ _ (List.mem_cons_self i seen),
        List.filter_append]
      have hj : jobHasUrl i (Job.mk page a.text (jobUrlOf i)) = true := by
        simp [jobHasUrl]
      simp [List.filter, hj, ha0]
    · have hmtl : rest.filter (anchorHasId i) = a₀ :: tl := by
        rwa [List.filter_cons_of_neg (by simpa using hai)] at hm
      cases ha : a.id with
      | none => simp only [extractAnchors, ha]; exact ih a₀ tl jobs seen hns hmtl
      | some idv =>
        have hne : idv ≠ i := by
          intro h; subst h
          exact hai (by simp [anchorHasId, ha])
        simp only [extractAnchors, ha]
        by_cases hc : (hash_pattern_is_match idv && !(seen.contains idv)) = true
        · rw [if_pos hc]
          have hns' : i ∉ idv :: seen := by
            intro h
            rcases List.mem_cons.mp h with h | h
            · exact hne h.symm
            · exact hns h
          rw [ih a₀ tl _ _ hns' hmtl, List.filter_append]
          have : jobHasUrl i (Job.mk page a.text (jobUrlOf idv)) = false := by
            simp only [jobHasUrl, beq_eq_false_iff_ne, ne_eq]
            exact fun h => hne (jobUrlOf_inj h)
          simp [List.filter, this]
        · rw [if_neg hc]; exact ih a₀ tl jobs seen hns hmtl

theorem extract_sound (page : Nat) :
    ∀ (as : List Anchor) (jobs : List Job) (seen : List String) (j : Job),
      j ∈ (extractAnchors page as (jobs, seen)).1 →
      j ∈ jobs ∨ ∃ a, a ∈ as ∧ ∃ idv, a.id = some idv ∧
        hash_pattern_is_match idv = true ∧ j = Job.mk page a.text (jobUrlOf idv) := by
  intro as
  induction as with
  | nil => intro jobs seen j hj; exact Or.inl hj
  | cons a rest ih =>
    intro jobs seen j hj
    cases ha : a.id with
    | none =>
      simp only [extractAnchors, ha] at hj
      rcases ih _ _ _ hj with h | ⟨a', ha', rest'⟩
      · exact Or.inl h
      · exact Or.inr ⟨a', List.mem_cons_of_mem a ha', rest'⟩
    | some idv =>
      simp only [extractAnchors, ha] at hj
      by_cases hc : (hash_pattern_is_match idv && !(seen.contains idv)) = true
      · rw [if_pos hc] at hj
        rcases ih _ _ _ hj with h | ⟨a', ha', rest'⟩
        · rcases List.mem_append.mp h with h | h
          · exact Or.inl h
          · have hc' := hc
            rw [Bool.and_eq_true] at hc'
            refine Or.inr ⟨a, List.mem_cons_self a rest, idv, ha, hc'.1, ?_⟩
            simpa using h
        · exact Or.inr ⟨a', List.mem_cons_of_mem a ha', rest'⟩
      · rw [if_neg hc] at hj
        rcases ih _ _ _ hj with h | ⟨a', ha', rest'⟩
        · exact Or.inl h
        · exact Or.inr ⟨a', List.mem_cons_of_mem a ha', rest'⟩

/-- **C7.** If the rendered page contains two or more anchors carrying
the same UUID-shaped identifier `i` (the traversal-ordered list of
anchors whose `id` is `i` being `a₀ :: tl` with `tl ≠ []`), extraction
returns exactly one Posting whose canonical URL is that of `i`, and its
title is the text of the first-seen matching anchor `a₀`. -/
theorem extraction_dedup (page : Nat) (divs : List (List Anchor)) (i : String)
    (a₀ : Anchor) (tl : List Anchor)
    (hshape : hash_pattern_is_match i = true)
    (hm : divs.flatten.filter (anchorHasId i) = a₀ :: tl)
    (_h2 : tl ≠ []) :
    (get_job_detail_ids page divs).filter (jobHasUrl i)
      = [Job.mk page a₀.text (jobUrlOf i)] := by
  rw [get_job_detail_ids, foldl_extract]
  rw [extract_first page i hshape divs.flatten a₀ tl [] [] (by simp) hm]
  rfl

/-- Witness for `extraction_dedup`: a page with two anchors sharing the
identifier `f0767d15-68a2-4c23-95c6-5685dedf2d2d` and differing titles
yields exactly one Posting, titled from the first anchor. -/
theorem extraction_dedup_witness :
    (get_job_detail_ids 1
        [[Anchor.mk (some "f0767d15-68a2-4c23-95c6-5685dedf2d2d") "Title A",
          Anchor.mk (some "f0767d15-68a2-4c23-95c6-5685dedf2d2d") "Title B"]]).filter
      (jobHasUrl "f0767d15-68a2-4c23-95c6-5685dedf2d2d")
      = [Job.mk 1 "Title A"
          (jobUrlOf "f0767d15-68a2-4c23-95c6-5685dedf2d2d")] :=
  extraction_dedup 1
    [[Anchor.mk (some "f0767d15-68a2-4c23-95c6-5685dedf2d2d") "Title A",
      Anchor.mk (some "f0767d15-68a2-4c23-95c6-5685dedf2d2d") "Title B"]]
    "f0767d15-68a2-4c23-95c6-5685dedf2d2d"
    (Anchor.mk (some "f0767d15-68a2-4c23-95c6-5685dedf2d2d") "Title A")
    [Anchor.mk (some "f0767d15-68a2-4c23-95c6-5685dedf2d2d") "Title B"]
    (by decide) (by decide) (by decide)

/-- **C8.** Soundness and completeness of the identifier filter: every
extracted Posting originates from an anchor whose `id` is UUID-shaped
and has canonical URL `"https://dice.com/job-detail/" ++ identifier`
(anchors with absent ids contribute nothing); conversely whenever some
anchor carries a UUID-shaped id `i`, a Posting with `i`'s canonical URL
is extracted; and no Posting is ever produced for a non-UUID-shaped
string such as `"not-a-uuid"`. -/
theorem extraction_filter_spec (page : Nat) (divs : List (List Anchor)) :
    (∀ j, j ∈ get_job_detail_ids page divs →
      ∃ a, a ∈ divs.flatten ∧ ∃ idv, a.id = some idv ∧
        hash_pattern_is_match idv = true ∧
        j = Job.mk page a.text (jobUrlOf idv)) ∧
    (∀ i, hash_pattern_is_match i = true →
      (∃ a, a ∈ divs.flatten ∧ a.id = some i) →
      ∃ j, j ∈ get_job_detail_ids page divs ∧ j.url = jobUrlOf i) ∧
    (∀ i, hash_pattern_is_match i = false →
      ∀ j, j ∈ get_job_detail_ids page divs → j.url ≠ jobUrlOf i) := by
  have hsound : ∀ j, j ∈ get_job_detail_ids page divs →
      ∃ a, a ∈ divs.flatten ∧ ∃ idv, a.id = some idv ∧
        hash_pattern_is_match idv = true ∧
        j = Job.mk page a.text (jobUrlOf idv) := by
    intro j hj
    rw [get_job_detail_ids, foldl_extract] at hj
    rcases extract_sound page divs.flatten [] [] j hj with h | h
    · cases h
    · exact h
  refine ⟨hsound, ?_, ?_⟩
  · intro i hshape ⟨a, ha, haid⟩
    have hmem : a ∈ divs.flatten.filter (anchorHasId i) :=
      List.mem_filter.mpr ⟨ha, by simp [anchorHasId, haid]⟩
    cases hfe : divs.flatten.filter (anchorHasId i) with
    | nil => rw [hfe] at hmem; cases hmem
    | cons a₀ tl =>
      have hfilter := extraction_dedup page divs i a₀ tl hshape hfe
      rw [get_job_detail_ids, foldl_extract]
      have := extract_first page i hshape divs.flatten a₀ tl [] [] (by simp) hfe
      refine ⟨Job.mk page a₀.text (jobUrlOf i), ?_, rfl⟩
      have hmem' : Job.mk page a₀.text (jobUrlOf i)
          ∈ (extractAnchors page divs.flatten ([], [])).1.filter (jobHasUrl i) := by
        rw [this]; simp
      exact (List.mem_filter.mp hmem').1
  · intro i hni j hj hurl
    rcases hsound j hj with ⟨a, _, idv, _, hidshape, hjeq⟩
    have : idv = i := jobUrlOf_inj (by rw [hjeq] at hurl; exact hurl)
    rw [this] at hidshape
    rw [hidshape] at hni
    cases hni

/-- Witness for `extraction_filter_spec`: on a page holding an anchor
with id `"not-a-uuid"`, an anchor with a genuine UUID id and an anchor
with no id, a Posting is produced for the UUID (canonical URL
`https://dice.com/job-detail/f0767d15-68a2-4c23-95c6-5685dedf2d2d`)
and none for `"not-a-uuid"`. -/
theorem extraction_filter_spec_witness :
    (∃ j, j ∈ get_job_detail_ids 1
        [[Anchor.mk (some "not-a-uuid") "Bad",
          Anchor.mk (some "f0767d15-68a2-4c23-95c6-5685dedf2d2d") "Good",
          Anchor.mk none "NoId"]] ∧
      j.url = jobUrlOf "f0767d15-68a2-4c23-95c6-5685dedf2d2d") ∧
    (∀ j, j ∈ get_job_detail_ids 1
        [[Anchor.mk (some "not-a-uuid") "Bad",
          Anchor.mk (some "f0767d15-68a2-4c23-95c6-5685dedf2d2d") "Good",
          Anchor.mk none "NoId"]] →
      j.url ≠ jobUrlOf "not-a-uuid") := by
  constructor
  · exact (extraction_filter_spec 1
      [[Anchor.mk (some "not-a-uuid") "Bad",
        Anchor.mk (some "f0767d15-68a2-4c23-95c6-5685dedf2d2d") "Good",
        Anchor.mk none "NoId"]]).2.1
      "f0767d15-68a2-4c23-95c6-5685dedf2d2d" (by decide)
      ⟨Anchor.mk (some "f0767d15-68a2-4c23-95c6-5685dedf2d2d") "Good",
        by decide, rfl⟩
  · exact (extraction_filter_spec 1
      [[Anchor.mk (some "not-a-uuid") "Bad",
        Anchor.mk (some "f0767d15-68a2-4c23-95c6-5685dedf2d2d") "Good",
        Anchor.mk none "NoId"]]).2.2
      "not-a-uuid" (by decide)

/-! ## Deep-link composition (`generate_encoded_url`, lines 350-362)

The source serializes a `serde_json::json!` object and base64url-encodes
it (`base64::encode_config(json_data, URL_SAFE)`, padded URL-safe
alphabet).  `serde_json`'s `Map` is a `BTreeMap` (the `preserve_order`
feature is not enabled), so the keys serialize in sorted order:
`djvVersion`, `jobId`, `jobTitle`, `jobUrl`, `searchLink`,
`searchParams`.  Bytes are the UTF-8 encoding of the JSON text. -/

def utf8Bytes (c : Char) : List Nat :=
  let n := c.toNat
  if n < 128 then [n]
  else if n < 2048 then [192 + n / 64, 128 + n % 64]
  else if n < 65536 then [224 + n / 4096, 128 + (n / 64) % 64, 128 + n % 64]
  else [240 + n / 262144, 128 + (n / 4096) % 64, 128 + (n / 64) % 64, 128 + n % 64]

def strBytes (s : String) : List Nat := (s.data.map utf8Bytes).flatten

/-- The URL-safe base64 alphabet: `A-Z`, `a-z`, `0-9`, `-`, `_`. -/
def b64Char (n : Nat) : Char :=
  if n < 26 then Char.ofNat (65 + n)
  else if n < 52 then Char.ofNat (97 + (n - 26))
  else if n < 62 then Char.ofNat (48 + (n - 52))
  else if n == 62 then '-'
  else '_'

def b64EncodeList : List Nat → List Char
  | [] => []
  | [b1] => [b64Char (b1 / 4), b64Char (b1 % 4 * 16), '=', '=']
  | [b1, b2] =>
    [b64Char (b1 / 4), b64Char (b1 % 4 * 16 + b2 / 16), b64Char (b2 % 16 * 4), '=']
  | b1 :: b2 :: b3 :: rest =>
    b64Char (b1 / 4) :: b64Char (b1 % 4 * 16 + b2 / 16)
      :: b64Char (b2 % 16 * 4 + b3 / 64) :: b64Char (b3 % 64) :: b64EncodeList rest

def base64urlEncode (bytes : List Nat) : String := String.mk (b64EncodeList bytes)

def b64Val (c : Char) : Option Nat :=
  if 'A' ≤ c && c ≤ 'Z' then some (c.toNat - 65)
  else if 'a' ≤ c && c ≤ 'z' then some (c.toNat - 97 + 26)
  else if '0' ≤ c && c ≤ '9' then some (c.toNat - 48 + 52)
  else if c == '-' then some 62
  else if c == '_' then some 63
  else none

def b64DecodeList : List Char → Option (List Nat)
  | [] => some []
  | [c1, c2, '=', '='] => do
    let v1 ← b64Val c1
    let v2 ← b64Val c2
    pure [v1 * 4 + v2 / 16]
  | [c1, c2, c3, '='] => do
    let v1 ← b64Val c1
    let v2 ← b64Val c2
    let v3 ← b64Val c3
    pure [v1 * 4 + v2 / 16, v2 % 16 * 16 + v3 / 4]
  | c1 :: c2 :: c3 :: c4 :: rest => do
    let v1 ← b64Val c1
    let v2 ← b64Val c2
    let v3 ← b64Val c3
    let v4 ← b64Val c4
    let tail ← b64DecodeList rest
    pure ((v1 * 4 + v2 / 16) :: (v2 % 16 * 16 + v3 / 4) :: (v3 % 4 * 64 + v4) :: tail)
  | _ => none

def utf8Decode : List Nat → Option (List Char)
  | [] => some []
  | b :: rest =>
    if b < 128 then do
      let cs ← utf8Decode rest
      pure (Char.ofNat b :: cs)
    else if b < 224 then
      match rest with
      | b2 :: rest2 => do
        let cs ← utf8Decode rest2
        pure (Char.ofNat ((b - 192) * 64 + (b2 - 128)) :: cs)
      | [] => none
    else if b < 240 then
      match rest with
      | b2 :: b3 :: rest3 => do
        let cs ← utf8Decode rest3
        pure (Char.ofNat ((b - 224) * 4096 + (b2 - 128) * 64 + (b3 - 128)) :: cs)
      | _ => none
    else
      match rest with
      | b2 :: b3 :: b4 :: rest4 => do
        let cs ← utf8Decode rest4
        pure (Char.ofNat ((b - 240) * 262144 + (b2 - 128) * 4096
          + (b3 - 128) * 64 + (b4 - 128)) :: cs)
      | _ => none

def lowerHexDigit (n : Nat) : Char :=
  if n < 10 then Char.ofNat (48 + n) else Char.ofNat (97 + (n - 10))

/-- `serde_json` string escaping: quote, backslash, the short control
escapes, `\u00xx` for other control characters. -/
def jsonEscapeChar (c : Char) : List Char :=
  if c == '"' then ['\\', '"']
  else if c == '\\' then ['\\', '\\']
  else if c == Char.ofNat 8 then ['\\', 'b']
  else if c == Char.ofNat 12 then ['\\', 'f']
  else if c == '\n' then ['\\', 'n']
  else if c == '\r' then ['\\', 'r']
  else if c == '\t' then ['\\', 't']
  else if c.toNat < 32 then
    ['\\', 'u', '0', '0', lowerHexDigit (c.toNat / 16), lowerHexDigit (c.toNat % 16)]
  else [c]

def jsonStr (s : String) : String :=
  "\"" ++ String.mk (s.data.map jsonEscapeChar).flatten ++ "\""

/-- `generate_encoded_url` (lines 350-362).  The braces of the JSON text
are written `\x7b` / `\x7d`. -/
def generate_encoded_url (job_id job_title search_params : String) : String :=
  let jobUrl := "https://www.dice.com/job-detail/" ++ job_id ++ "?" ++ search_params
  let searchLink := "?searchlink=search%2F%3F" ++ search_params
  let searchParamsField := "?" ++ search_params
  let json_data :=
    "\x7b\"djvVersion\":\"new\",\"jobId\":" ++ jsonStr job_id ++
      ",\"jobTitle\":" ++ jsonStr job_title ++
      ",\"jobUrl\":" ++ jsonStr jobUrl ++
      ",\"searchLink\":" ++ jsonStr searchLink ++
      ",\"searchParams\":" ++ jsonStr searchParamsField ++ "\x7d"
  "https://www.dice.com/apply?" ++ base64urlEncode (strBytes json_data)

/-- Unescape a JSON string body up to its closing quote; returns the
string and the unconsumed remainder.  (`\u` escapes are not produced
for any value this development decodes and are rejected.) -/
def unescapeJsonStr : List Char → List Char → Option (String × List Char)
  | acc, '"' :: rest => some (String.mk acc.reverse, rest)
  | acc, '\\' :: e :: rest =>
    if e == 'n' then unescapeJsonStr ('\n' :: acc) rest
    else if e == 't' then unescapeJsonStr ('\t' :: acc) rest
    else if e == 'r' then unescapeJsonStr ('\r' :: acc) rest
    else if e == 'b' then unescapeJsonStr (Char.ofNat 8 :: acc) rest
    else if e == 'f' then unescapeJsonStr (Char.ofNat 12 :: acc) rest
    else if e == '"' then unescapeJsonStr ('"' :: acc) rest
    else if e == '\\' then unescapeJsonStr ('\\' :: acc) rest
    else if e == '/' then unescapeJsonStr ('/' :: acc) rest
    else none
  | acc, c :: rest => unescapeJsonStr (c :: acc) rest
  | _, [] => none

/-- Parse the comma-separated `"key":"value"` pairs of a flat JSON
object of string values, up to the closing brace. -/
def parseJsonPairs : Nat → List Char → Option (List (String × String))
  | 0, _ => none
  | fuel + 1, '"' :: rest =>
    match unescapeJsonStr [] rest with
    | none => none
    | some (k, r1) =>
      match r1 with
      | ':' :: '"' :: r2 =>
        match unescapeJsonStr [] r2 with
        | none => none
        | some (v, r3) =>
          match r3 with
          | ',' :: r4 =>
            match parseJsonPairs fuel r4 with
            | none => none
            | some ps => some ((k, v) :: ps)
          | [c] => if c == Char.ofNat 125 then some [(k, v)] else none
          | _ => none
      | _ => none
  | _, _ => none

def parseJsonObj (s : String) : Option (List (String × String)) :=
  match s.data with
  | c :: rest =>
    if c == Char.ofNat 123 then parseJsonPairs (rest.length + 1) rest else none
  | [] => none

/-- Decode the base64url payload embedded after the fixed apply-entry
path of a composed apply URL, as a flat JSON object. -/
def decodeApplyPayload (url : String) : Option (List (String × String)) := do
  let tail := url.drop ("https://www.dice.com/apply?".length)
  let bytes ← b64DecodeList tail.data
  let chars ← utf8Decode bytes
  parseJsonObj (String.mk chars)

def payloadField (url : String) (k : String) : Option String := do
  let ps ← decodeApplyPayload url
  let p ← ps.find? (fun kv => kv.1 == k)
  pure p.2

/-! ## Apply Orchestrator (`open_job_urls`, lines 364-383)

Per job the source does: build the encoded URL (passing **`job.url`** —
the canonical job-detail URL, not the bare identifier — as the `job_id`
argument of `generate_encoded_url`, line 367), `driver.get(url)?`,
sleep 2 s, `driver.execute_script(script)?` (a one-shot JS click on the
first `button.btn.btn-primary` when its text is `Easy apply`), sleep
2 s, next job.  The two `?` operators abort the whole loop on error.

The `Action` alphabet also has `waitFor` / `clickLabeled`
constructors: they are the observable vocabulary of the spec's
AdvanceFormStep/Submit stages (wait for a labeled button, click it);
the embedded code never emits them. -/

inductive Action where
  | navigate (url : String)
  | sleepMs (ms : Nat)
  | execScript (script : String)
  | waitFor (label : String)
  | clickLabeled (label : String)
deriving DecidableEq

/-- The raw JS of lines 373-378, whitespace-normalized; quotes and
braces written via `\x27`, `\x7b`, `\x7d` escapes. -/
def easyApplyScript : String :=
  "var button = document.querySelector(\x27button.btn.btn-primary\x27); if (button && button.innerText === \x27Easy apply\x27) \x7b button.click(); \x7d"

/-- The actions one fully processed job contributes (lines 367-380). -/
def jobBlock (search_params : String) (job : Job) : List Action :=
  [Action.navigate (generate_encoded_url job.url job.job_title search_params),
   Action.sleepMs 2000, Action.execScript easyApplyScript, Action.sleepMs 2000]

/-- `open_job_urls` from job index `k` on.  `navR k` / `execR k` are the
outcomes of the `driver.get` and `driver.execute_script` calls for the
`k`-th job; an `Err` is returned immediately (the source's `?`),
keeping the actions performed up to and including the failing call. -/
def openJobsGo (navR execR : Nat → Except Unit Unit) (search_params : String) :
    Nat → List Job → List Action × Except Unit Unit
  | _, [] => ([], Except.ok ())
  | k, job :: rest =>
    let encoded_url := generate_encoded_url job.url job.job_title search_params
    match navR k with
    | Except.error e => ([Action.navigate encoded_url], Except.error e)
    | Except.ok _ =>
      match execR k with
      | Except.error e =>
        ([Action.navigate encoded_url, Action.sleepMs 2000,
          Action.execScript easyApplyScript], Except.error e)
      | Except.ok _ =>
        let res := openJobsGo navR execR search_params (k + 1) rest
        (Action.navigate encoded_url :: Action.sleepMs 2000
          :: Action.execScript easyApplyScript :: Action.sleepMs 2000 :: res.1,
         res.2)

def open_job_urls (navR execR : Nat → Except Unit Unit) (jobs : List Job)
    (search_params : String) : List Action × Except Unit Unit :=
  openJobsGo navR execR search_params 0 jobs

/-- Oracle for runs in which every remote call succeeds. -/
def allOk : Nat → Except Unit Unit := fun _ => Except.ok ()

/-- Is the action a wait-for-labeled-button or click-labeled-button
step (the spec's AdvanceFormStep/Submit vocabulary)? -/
def isWaitOrClick : Action → Bool
  | Action.waitFor _ => true
  | Action.clickLabeled _ => true
  | _ => false

theorem openJobsGo_allOk (search_params : String) :
    ∀ (jobs : List Job) (k : Nat),
      openJobsGo allOk allOk search_params k jobs
        = ((jobs.map (jobBlock search_params)).flatten, Except.ok ()) := by
  intro jobs
  induction jobs with
  | nil => intro k; rfl
  | cons job rest ih =>
    intro k
    simp only [openJobsGo, allOk, ih (k + 1), List.map_cons, List.flatten_cons]
    rfl

theorem jobBlock_no_wait (search_params : String) (job : Job) :
    (jobBlock search_params job).filter isWaitOrClick = [] := rfl

/-- **C2 (amended).** On the success path the orchestrator's whole
per-posting flow after navigation is: a fixed 2 s sleep, one execution
of the one-shot easy-apply script, another fixed 2 s sleep — and then
the next posting.  No wait-for-"Next" step, no click of a
"Next"-labeled button, no wait-for-"Submit" step and no click of a
"Submit"-labeled button ever occurs: the trace is exactly the
concatenation of the four-action blocks and contains no wait/click
action at all. -/
theorem open_job_urls_flow (jobs : List Job) (search_params : String) :
    open_job_urls allOk allOk jobs search_params
        = ((jobs.map (jobBlock search_params)).flatten, Except.ok ()) ∧
      ((open_job_urls allOk allOk jobs search_params).1.filter isWaitOrClick) = [] := by
  refine ⟨openJobsGo_allOk search_params jobs 0, ?_⟩
  rw [open_job_urls, openJobsGo_allOk search_params jobs 0]
  induction jobs with
  | nil => rfl
  | cons job rest ih =>
    simp only [List.map_cons, List.flatten_cons, List.filter_append,
      jobBlock_no_wait, List.nil_append]
    exact ih

/-- **C2 counterexample.** For the posting
`{id:"abc", title:"Engineer"}` (canonical URL
`https://dice.com/job-detail/abc`) with search params `"q=go"`, the
orchestrator's complete trace after the navigation is
sleep / easy-apply script / sleep: it contains no wait for a
"Next"-labeled button, no click of one, no wait for a
"Submit"-labeled button and no click of one, contradicting the claimed
AdvanceFormStep/Submit stages. -/
theorem open_job_urls_no_submit_counterexample :
    (open_job_urls allOk allOk
        [Job.mk 1 "Engineer" "https://dice.com/job-detail/abc"] "q=go").1
      = [Action.navigate (generate_encoded_url
            "https://dice.com/job-detail/abc" "Engineer" "q=go"),
         Action.sleepMs 2000, Action.execScript easyApplyScript,
         Action.sleepMs 2000] ∧
    ((open_job_urls allOk allOk
        [Job.mk 1 "Engineer" "https://dice.com/job-detail/abc"] "q=go").1.filter
      isWaitOrClick) = [] := ⟨rfl, rfl⟩

theorem openJobsGo_nav_error (navR execR : Nat → Except Unit Unit)
    (search_params : String) :
    ∀ (pre : List Job) (job : Job) (post : List Job) (k : Nat),
      (∀ m, m < pre.length →
        navR (k + m) = Except.ok () ∧ execR (k + m) = Except.ok ()) →
      navR (k + pre.length) = Except.error () →
      openJobsGo navR execR search_params k (pre ++ job :: post)
        = ((pre.map (jobBlock search_params)).flatten
            ++ [Action.navigate
                  (generate_encoded_url job.url job.job_title search_params)],
           Except.error ()) := by
  intro pre
  induction pre with
  | nil =>
    intro job post k _ hfail
    simp only [List.length_nil, Nat.add_zero] at hfail
    simp only [List.nil_append, openJobsGo, hfail, List.map_nil,
      List.flatten_nil]
  | cons p pre ih =>
    intro job post k hok hfail
    have h0 := hok 0 (by simp)
    rw [Nat.add_zero] at h0
    simp only [List.cons_append, openJobsGo, h0.1, h0.2]
    have hok' : ∀ m, m < pre.length →
        navR (k + 1 + m) = Except.ok () ∧ execR (k + 1 + m) = Except.ok () := by
      intro m hm
      have := hok (m + 1) (by simp; omega)
      rwa [show k + (m + 1) = k + 1 + m by omega] at this
    have hfail' : navR (k + 1 + pre.length) = Except.error () := by
      rwa [show k + 1 + pre.length = k + (p :: pre).length by simp; omega]
    simp only [List.append_eq]
    rw [ih job post (k + 1) hok' hfail']
    simp [jobBlock]

/-- **C4 (amended).** A navigation failure on one posting aborts the
whole run, not just that posting: if `driver.get` fails on the posting
after `pre` (all earlier calls succeeding), `open_job_urls` returns
that error immediately, the trace stops at the failed navigation, no
later posting is processed and no failure record is produced — the
error propagates to the caller (and hence out of `main` through `?`). -/
theorem nav_failure_aborts_run (navR execR : Nat → Except Unit Unit)
    (search_params : String) (pre : List Job) (job : Job) (post : List Job)
    (hok : ∀ m, m < pre.length →
      navR m = Except.ok () ∧ execR m = Except.ok ())
    (hfail : navR pre.length = Except.error ()) :
    open_job_urls navR execR (pre ++ job :: post) search_params
      = ((pre.map (jobBlock search_params)).flatten
          ++ [Action.navigate
                (generate_encoded_url job.url job.job_title search_params)],
         Except.error ()) := by
  have := openJobsGo_nav_error navR execR search_params pre job post 0
    (by simpa using hok) (by simpa using hfail)
  exact this

/-- Witness for `nav_failure_aborts_run`: two postings, the navigation
for the second fails — the run ends in an error after the second
navigation attempt, with nothing done for any posting that would
follow. -/
theorem nav_failure_aborts_run_witness :
    open_job_urls (fun k => if k == 1 then Except.error () else Except.ok ())
        allOk
        [Job.mk 1 "A" "https://dice.com/job-detail/a1",
         Job.mk 1 "B" "https://dice.com/job-detail/b2"] ""
      = (jobBlock "" (Job.mk 1 "A" "https://dice.com/job-detail/a1")
          ++ [Action.navigate (generate_encoded_url
                "https://dice.com/job-detail/b2" "B" "")],
         Except.error ()) := by
  have := nav_failure_aborts_run
    (fun k => if k == 1 then Except.error () else Except.ok ()) allOk ""
    [Job.mk 1 "A" "https://dice.com/job-detail/a1"]
    (Job.mk 1 "B" "https://dice.com/job-detail/b2") []
    (by intro m hm; simp only [List.length_cons, List.length_nil] at hm
        have hm0 : m = 0 := by omega
        subst hm0; exact ⟨rfl, rfl⟩) rfl
  simpa using this

/-- **C4 counterexample.** The claim says a navigation failure on one
posting is recorded and the orchestrator continues with the next
posting.  Concretely: two postings, navigation fails on the first —
the whole run returns the error at once and the trace contains only
the single failed navigation; the second posting is never navigated. -/
theorem nav_failure_skips_rest_counterexample :
    open_job_urls (fun k => if k == 0 then Except.error () else Except.ok ())
        allOk
        [Job.mk 1 "A" "https://dice.com/job-detail/a1",
         Job.mk 1 "B" "https://dice.com/job-detail/b2"] ""
      = ([Action.navigate (generate_encoded_url
            "https://dice.com/job-detail/a1" "A" "")],
         Except.error ()) := rfl

set_option maxRecDepth 40000 in
/-- **C5 (code bug).** Decoding the base64url payload of the apply URL
actually composed by `open_job_urls` for the posting
`{id:"abc", title:"Engineer"}` with search params `"q=go"`: `jobTitle`
is `"Engineer"` as claimed, but `jobId` is the posting's canonical URL
`"https://dice.com/job-detail/abc"`, not `"abc"` — because line 367
passes `job.url` where `generate_encoded_url` expects the bare job id
(as its own `jobUrl` template `https://www.dice.com/job-detail/{job_id}`
shows, which here degenerates to
`https://www.dice.com/job-detail/https://dice.com/job-detail/abc?q=go`). -/
theorem deep_link_jobid_bug :
    (open_job_urls allOk allOk
        [Job.mk 1 "Engineer" "https://dice.com/job-detail/abc"] "q=go").1
      = [Action.navigate (generate_encoded_url
            "https://dice.com/job-detail/abc" "Engineer" "q=go"),
         Action.sleepMs 2000, Action.execScript easyApplyScript,
         Action.sleepMs 2000] ∧
    payloadField (generate_encoded_url
        "https://dice.com/job-detail/abc" "Engineer" "q=go") "jobId"
      = some "https://dice.com/job-detail/abc" ∧
    payloadField (generate_encoded_url
        "https://dice.com/job-detail/abc" "Engineer" "q=go") "jobTitle"
      = some "Engineer" ∧
    payloadField (generate_encoded_url
        "https://dice.com/job-detail/abc" "Engineer" "q=go") "jobUrl"
      = some "https://www.dice.com/job-detail/https://dice.com/job-detail/abc?q=go" ∧
    ("https://dice.com/job-detail/abc" == "abc") = false := by
  refine ⟨rfl, by decide, by decide, by decide, by decide⟩

/-! ## Search URL Builder (`build_url_from_config`, lines 121-132)

The config is parsed into `SearchQuery` (serde renames:
`countryCode`, `filters.employmentType`, `filters.employerType`,
`filters.easyApply`, all fields strings except the easy-apply flag).
`serde_urlencoded::to_string` serializes the fields in declaration
order with `application/x-www-form-urlencoded` byte encoding
(alphanumeric and `*-._` kept, space to `+`, other UTF-8 bytes to
uppercase `%XX`); it cannot fail on this struct, so `encoded_query` is
always `Ok(..)`.  Line 127 then formats the **un-unwrapped `Result`**
with `{:?}`:
`format!("https://dice.com/jobs?{:?}", encoded_query)`, which
interposes `Ok("` and `")` (with Rust `Debug` string escaping) between
the base URL and the query string. -/

structure SearchQuery where
  q : String
  location : String
  country_code : String
  filters_employment_type : String
  filters_employer_type : String
  filters_easy_apply : Bool
  language : String
deriving DecidableEq

def upperHexDigit (n : Nat) : Char :=
  if n < 10 then Char.ofNat (48 + n) else Char.ofNat (65 + (n - 10))

def formEncodeChar (c : Char) : List Char :=
  if ('A' ≤ c && c ≤ 'Z') || ('a' ≤ c && c ≤ 'z') || ('0' ≤ c && c ≤ '9')
      || c == '*' || c == '-' || c == '.' || c == '_' then [c]
  else if c == ' ' then ['+']
  else ((utf8Bytes c).map
    (fun b => ['%', upperHexDigit (b / 16), upperHexDigit (b % 16)])).flatten

def formEncode (s : String) : String := String.mk (s.data.map formEncodeChar).flatten

def serde_urlencoded_to_string (sq : SearchQuery) : String :=
  "q=" ++ formEncode sq.q ++
    "&location=" ++ formEncode sq.location ++
    "&countryCode=" ++ formEncode sq.country_code ++
    "&filters.employmentType=" ++ formEncode sq.filters_employment_type ++
    "&filters.employerType=" ++ formEncode sq.filters_employer_type ++
    "&filters.easyApply=" ++ (if sq.filters_easy_apply then "true" else "false") ++
    "&language=" ++ formEncode sq.language

/-- Rust `Debug` escaping of the characters that can occur in a
form-urlencoded ASCII string (quote, backslash and the common control
escapes; all other printable characters pass through). -/
def rustDebugEscapeChar (c : Char) : List Char :=
  if c == '"' then ['\\', '"']
  else if c == '\\' then ['\\', '\\']
  else if c == '\n' then ['\\', 'n']
  else if c == '\r' then ['\\', 'r']
  else if c == '\t' then ['\\', 't']
  else [c]

/-- `{:?}` on the `Result<String, ConfigError>` value. -/
def rustDebugFmt (r : Except Unit String) : String :=
  match r with
  | Except.ok s => "Ok(\"" ++ String.mk (s.data.map rustDebugEscapeChar).flatten ++ "\")"
  | Except.error _ => "Err(UrlEncoded(..))"

/-- `build_url_from_config` (lines 121-132) on an already-parsed
config.  `encoded_query` is `Ok(..)` (the serializer cannot fail here)
and is Debug-formatted straight into the URL. -/
def build_url_from_config (search_query : SearchQuery) : String :=
  "https://dice.com/jobs?" ++
    rustDebugFmt (Except.ok (serde_urlencoded_to_string search_query))

/-- **C9 (code bug).** The built URL is never the base followed by
exactly the url-encoded query string: `{:?}` interposes `Ok("` and
`")`.  Concretely, for the sample config the URL comes out as
`https://dice.com/jobs?Ok("q=rust&location=Remote&countryCode=US&...")`
instead of `https://dice.com/jobs?q=rust&location=Remote&...`. -/
theorem search_url_debug_bug :
    (∀ sq : SearchQuery,
      (build_url_from_config sq
          == "https://dice.com/jobs?" ++ serde_urlencoded_to_string sq) = false) ∧
    build_url_from_config
        (SearchQuery.mk "rust" "Remote" "US" "FULLTIME" "Direct Hire" true "en")
      = "https://dice.com/jobs?Ok(\"q=rust&location=Remote&countryCode=US&filters.employmentType=FULLTIME&filters.employerType=Direct+Hire&filters.easyApply=true&language=en\")" := by
  constructor
  · intro sq
    rw [beq_eq_false_iff_ne]
    intro h
    have h2 := congrArg String.data h
    rw [build_url_from_config, String.data_append, String.data_append] at h2
    have h3 := List.append_cancel_left h2
    have h4 := congrArg List.head? h3
    have e1 : (rustDebugFmt
        (Except.ok (serde_urlencoded_to_string sq))).data.head? = some 'O' := rfl
    have e2 : (serde_urlencoded_to_string sq).data.head? = some 'q' := rfl
    rw [e1, e2] at h4
    cases h4
  · rfl

/-! ## Session Store and `main` (lines 135-195, 386-431)

`cookie_exists` (lines 183-195) opens `./cookies.json` and maps **both**
outcomes to `Ok`: `Ok(true)` when the open succeeds, `Ok(false)` when
it fails.  `main` (lines 386-431):

1. connect to the webdriver (`?`),
2. `build_url_from_config()?`,
3. **`let login_result = login(&driver).await;` — the interactive login
   stage (navigate to the login page, block on "Press Enter") runs
   unconditionally here, before the cookie check**,
4. `match cookie_exists()`: `Ok(true)` → `load_cookies` then navigate /
   extract / apply / pause; `Ok(false)` → on `login_result` ok,
   `save_cookies` then the same pipeline, else a terminal login error;
   `Err(_)` → a terminal cookie-check error.

Each fallible call is an oracle argument; the trace records the stages
that ran. -/

inductive MainEvent where
  | connect
  | buildUrl
  | loginStage
  | loadCookies
  | saveCookies
  | navigate (url : String)
  | extractJobs
  | applyJobs
  | pressEnter
  | cookieCheckFail
deriving DecidableEq

inductive MainErr where
  | transport
  | config
  | loginFailed
  | cookieCheckFailed
deriving DecidableEq

/-- `cookie_exists` (lines 183-195): total on every file-system
outcome — `File::open` success gives `Ok(true)`, any open error gives
`Ok(false)`; no `Err` is ever produced. -/
def cookie_exists (fileOpenR : Except Unit Unit) : Except Unit Bool :=
  match fileOpenR with
  | Except.ok _ => Except.ok true
  | Except.error _ => Except.ok false

/-- The shared tail of both `main` branches (the source duplicates this
block in the `Ok(true)` and `Ok(false)` arms): store cookies
(load or save), `driver.get(&url)?`, `get_job_detail_ids(..)?`,
`open_job_urls(..)?`, "Press Enter" pause. -/
def mainPipeline (ev : List MainEvent) (store : MainEvent)
    (storeR : Except Unit Unit) (url : String) (navR : Except Unit Unit)
    (jobsR : Except Unit (List Job)) (openR : Except Unit Unit) :
    List MainEvent × Except MainErr Unit :=
  match storeR with
  | Except.error _ => (ev ++ [store], Except.error MainErr.transport)
  | Except.ok _ =>
    match navR with
    | Except.error _ => (ev ++ [store, MainEvent.navigate url],
        Except.error MainErr.transport)
    | Except.ok _ =>
      match jobsR with
      | Except.error _ => (ev ++ [store, MainEvent.navigate url,
          MainEvent.extractJobs], Except.error MainErr.transport)
      | Except.ok _jobs =>
        match openR with
        | Except.error _ => (ev ++ [store, MainEvent.navigate url,
            MainEvent.extractJobs, MainEvent.applyJobs],
            Except.error MainErr.transport)
        | Except.ok _ => (ev ++ [store, MainEvent.navigate url,
            MainEvent.extractJobs, MainEvent.applyJobs, MainEvent.pressEnter],
            Except.ok ())

/-- `main` (lines 386-431).  Oracle arguments, in source order:
`connectR` = `WebDriver::new`, `configR` = config open/parse inside
`build_url_from_config`, `loginR` = `login(&driver)` (runs before the
cookie check!), `fileOpenR` = `File::open("./cookies.json")` inside
`cookie_exists`, `loadR`/`saveR` = `load_cookies`/`save_cookies`,
`navR` = `driver.get(&url)`, `jobsR` = `get_job_detail_ids`,
`openR` = `open_job_urls`. -/
def main_flow (connectR : Except Unit Unit) (configR : Except Unit SearchQuery)
    (loginR fileOpenR loadR : Except Unit Unit) (navR : Except Unit Unit)
    (jobsR : Except Unit (List Job)) (openR saveR : Except Unit Unit) :
    List MainEvent × Except MainErr Unit :=
  match connectR with
  | Except.error _ => ([], Except.error MainErr.transport)
  | Except.ok _ =>
    match configR with
    | Except.error _ => ([MainEvent.connect], Except.error MainErr.config)
    | Except.ok sq =>
      let url := build_url_from_config sq
      let ev := [MainEvent.connect, MainEvent.buildUrl, MainEvent.loginStage]
      match cookie_exists fileOpenR with
      | Except.ok true => mainPipeline ev MainEvent.loadCookies loadR url navR jobsR openR
      | Except.ok false =>
        match loginR with
        | Except.ok _ => mainPipeline ev MainEvent.saveCookies saveR url navR jobsR openR
        | Except.error _ => (ev, Except.error MainErr.loginFailed)
      | Except.error _ => (ev ++ [MainEvent.cookieCheckFail],
          Except.error MainErr.cookieCheckFailed)

def hasLogin : List MainEvent → Bool
  | [] => false
  | MainEvent.loginStage :: _ => true
  | _ :: rest => hasLogin rest

def hasLoad : List MainEvent → Bool
  | [] => false
  | MainEvent.loadCookies :: _ => true
  | _ :: rest => hasLoad rest

def countSave : List MainEvent → Nat
  | [] => 0
  | MainEvent.saveCookies :: rest => countSave rest + 1
  | _ :: rest => countSave rest

def hasCookieFail : List MainEvent → Bool
  | [] => false
  | MainEvent.cookieCheckFail :: _ => true
  | _ :: rest => hasCookieFail rest

def isCookieCheckErr : Except MainErr Unit → Bool
  | Except.error MainErr.cookieCheckFailed => true
  | _ => false

/-- **C3 (amended).** The session-file presence decides load-versus-save
exactly as claimed — present: cookies are loaded and `save` never runs;
absent (and interactive login succeeded): `save` runs exactly once and
`load` never — but the interactive login stage itself runs
unconditionally, before the presence check, in every run that gets past
config parsing, including runs that resume a saved session. -/
theorem session_presence_behavior (sq : SearchQuery)
    (loginR fileOpenR loadR navR : Except Unit Unit)
    (jobsR : Except Unit (List Job)) (openR saveR : Except Unit Unit) :
    hasLogin (main_flow (Except.ok ()) (Except.ok sq) loginR fileOpenR loadR
        navR jobsR openR saveR).1 = true ∧
    (hasLoad (main_flow (Except.ok ()) (Except.ok sq) loginR (Except.ok ())
        loadR navR jobsR openR saveR).1 = true ∧
      countSave (main_flow (Except.ok ()) (Except.ok sq) loginR (Except.ok ())
        loadR navR jobsR openR saveR).1 = 0) ∧
    (countSave (main_flow (Except.ok ()) (Except.ok sq) (Except.ok ())
        (Except.error ()) loadR navR jobsR openR saveR).1 = 1 ∧
      hasLoad (main_flow (Except.ok ()) (Except.ok sq) (Except.ok ())
        (Except.error ()) loadR navR jobsR openR saveR).1 = false) := by
  refine ⟨?_, ⟨?_, ?_⟩, ⟨?_, ?_⟩⟩ <;>
    cases loginR <;> cases fileOpenR <;> cases loadR <;> cases navR <;>
      cases jobsR <;> cases openR <;> cases saveR <;> rfl

/-- **C3 counterexample.** The session file exists
(`cookie_exists` reports `Ok(true)`), every remote call succeeds — yet
the interactive login stage still runs: file presence does not suppress
it, because `main` awaits `login(&driver)` before consulting
`cookie_exists`. -/
theorem login_runs_despite_session_counterexample :
    cookie_exists (Except.ok ()) = Except.ok true ∧
      hasLogin (main_flow (Except.ok ())
        (Except.ok (SearchQuery.mk "rust" "Remote" "US" "FULLTIME"
          "Direct Hire" true "en"))
        (Except.ok ()) (Except.ok ()) (Except.ok ()) (Except.ok ())
        (Except.ok []) (Except.ok ()) (Except.ok ())).1 = true :=
  ⟨rfl, rfl⟩

/-- **C10.** `cookie_exists` is total and infallible: every file-system
outcome yields `Ok(true)` or `Ok(false)`, never `Err`; consequently the
terminal-error branch of `main`'s match on the session check (the
`Err(_)` arm, lines 426-429) is unreachable — no run ever produces the
cookie-check error or its trace event. -/
theorem cookie_exists_total :
    (∀ f, cookie_exists f = Except.ok true ∨ cookie_exists f = Except.ok false) ∧
    (∀ (connectR : Except Unit Unit) (configR : Except Unit SearchQuery)
        (loginR fileOpenR loadR navR : Except Unit Unit)
        (jobsR : Except Unit (List Job)) (openR saveR : Except Unit Unit),
      isCookieCheckErr (main_flow connectR configR loginR fileOpenR loadR
          navR jobsR openR saveR).2 = false ∧
        hasCookieFail (main_flow connectR configR loginR fileOpenR loadR
          navR jobsR openR saveR).1 = false) := by
  constructor
  · intro f
    cases f with
    | ok _ => exact Or.inl rfl
    | error _ => exact Or.inr rfl
  · intro connectR configR loginR fileOpenR loadR navR jobsR openR saveR
    cases connectR <;> cases configR <;> cases loginR <;> cases fileOpenR <;>
      cases loadR <;> cases navR <;> cases jobsR <;> cases openR <;>
        cases saveR <;> exact ⟨rfl, rfl⟩

end DiceBlast
